import Mathlib

/-!
# cbft REST handlers: index creation and index dispatch

A shallow embedding of `api_create_index.go` and `rest_index.go`.

Go `string` and `[]byte` values are Lean `String`s, a Go `error` is the
`String` its `Error()` method returns (so `%v` of an error and `%s` of a
string are both plain concatenation), and a `(value, error)` pair is an
`Except String value`.

A handler is a function from its collaborators and the request to a `Result`:
the calls it made on its collaborators, in order, and what was written to the
`http.ResponseWriter`, in order.  External collaborators (bleve, the TAP feed,
the definition store, `encoding/json`, the registry of index implementations)
are parameters.
-/

set_option linter.dupNamespace false

namespace Cbft

/-! ## Data model -/

/-- IndexDef, the definition record of one index.  The handlers read `UUID`,
`Type` (here `Typ`, as `Type` is reserved) and `Schema`. -/
structure IndexDef where
  Name : String
  UUID : String
  Typ : String
  Schema : String
  deriving DecidableEq, Repr

/-- IndexDefs, the collection of definitions: `IndexDefs` is the Go
`map[string]*IndexDef`, an association list whose values may be nil. -/
structure IndexDefs where
  UUID : String
  IndexDefs : List (String × Option IndexDef)
  deriving DecidableEq, Repr

/-- Go `m[k]` on a map whose values are pointers: the stored value, or nil
when the key is absent. -/
def mapIndex {α : Type} (m : List (String × Option α)) (k : String) : Option α :=
  match m.lookup k with
  | some v => v
  | none => none

/-- Go `m[k]` on a `map[string]string`: the stored value, or the empty string
when the key is absent. -/
def strIndex (m : List (String × String)) (k : String) : String :=
  match m.lookup k with
  | some v => v
  | none => ""

/-- The decoded value of a JSON document held in an `interface{}`; the
handlers never look inside one. -/
structure Iface where
  raw : String
  deriving DecidableEq, Repr

/-- Go `map[string]interface{}`: `none` is the nil map, `some []` the empty
map literal. -/
abbrev GoMap := Option (List (String × Iface))

/-- bleve's index mapping; the handler only passes it on. -/
structure IndexMapping where
  config : String
  deriving DecidableEq, Repr

/-- The handle of an open bleve index. -/
structure Index where
  handle : Nat
  deriving DecidableEq, Repr

/-- A prepared TAP feed. -/
structure Stream where
  handle : Nat
  deriving DecidableEq, Repr

/-- The configuration store handle held by a manager. -/
structure Cfg where
  handle : Nat
  deriving DecidableEq, Repr

/-- Manager: its `cfg` and the behaviour of its `GetIndexDefs(refresh)` method,
which returns `(indexDefs, indexDefsByName, err)`. -/
structure Manager where
  cfg : Cfg
  GetIndexDefs : Bool → Except String (Option IndexDefs × List (String × Option IndexDef))

/-- PIndexImplType, the descriptor of one index implementation.  Both
capabilities are optional (nil function values).  `Count(mgr, indexName,
indexUUID)` returns `(uint64, error)`; `Query(mgr, indexName, indexUUID, req,
res)` returns an error and writes to `res`: here it returns the chunks it
wrote together with its error, if any. -/
structure PIndexImplType where
  Count : Option (Manager → String → String → Except String Nat)
  Query : Option (Manager → String → String → String → List String × Option String)

/-- An HTTP request as the handlers see it: the mux route variables, the form
values and the outcome of `ioutil.ReadAll(req.Body)`. -/
structure Request where
  Vars : List (String × String)
  Form : List (String × String)
  Body : Except String String

/-- The method `req.FormValue(key)`. -/
def Request.FormValue (req : Request) (key : String) : String :=
  strIndex req.Form key

/-- The helper `muxVariableLookup(req, name)`, that is `mux.Vars(req)[name]`. -/
def muxVariableLookup (req : Request) (name : String) : String :=
  strIndex req.Vars name

def docIDLookup (req : Request) : String :=
  muxVariableLookup req "docID"

def indexNameLookup (req : Request) : String :=
  muxVariableLookup req "indexName"

/-! ## Observable behaviour of a handler -/

/-- A call a handler makes on one of its collaborators. -/
inductive Call where
  | FormValue (key : String)
  | GetIndexDefs (refresh : Bool)
  | CfgGetIndexDefs (cfg : Cfg)
  | ReadAll
  | NewIndexMapping
  | Unmarshal (data : String)
  | Printf (msg : String)
  | Count (indexName indexUUID : String)
  | Query (indexName indexUUID requestBody : String)
  | New (path : String) (mapping : IndexMapping)
  | NewTAPFeed (server bucket name checkpoint : String)
  | StartRegisteredStream (stream : Stream) (indexName : String) (index : Index)
  deriving DecidableEq, Repr

/-- The values handed to `mustEncode`: the anonymous `rv` structs. -/
inductive Payload where
  | status (Status : String)
  | indexDefs (Status : String) (IndexDefs : Option IndexDefs)
  | indexDef (Status : String) (IndexDef : Option IndexDef) (IndexMapping : GoMap)
  | count (Status : String) (Count : Nat)
  deriving DecidableEq, Repr

/-- What happens to the response: `showError(w, req, msg, code)`,
`mustEncode(w, rv)`, bytes written by a Query capability, or a run-time panic
of the handler (a nil pointer dereference), after which the handler writes
nothing. -/
inductive Write where
  | showError (msg : String) (code : Nat)
  | mustEncode (rv : Payload)
  | raw (data : String)
  | runtimePanic (msg : String)
  deriving DecidableEq, Repr

/-- The trace of one `ServeHTTP` run. -/
structure Result where
  calls : List Call
  writes : List Write
  deriving DecidableEq, Repr

/-- A backend capability call: Count or Query. -/
def Call.isCapability : Call → Bool
  | .Count _ _ => true
  | .Query _ _ _ => true
  | _ => false

/-- The side-effecting steps of index creation: `bleve.New`, `NewTAPFeed`,
`StartRegisteredStream`. -/
def Call.isCreationStep : Call → Bool
  | .New _ _ => true
  | .NewTAPFeed _ _ _ _ => true
  | .StartRegisteredStream _ _ _ => true
  | _ => false

/-- The feed steps: `NewTAPFeed` and `StartRegisteredStream`. -/
def Call.isFeedStep : Call → Bool
  | .NewTAPFeed _ _ _ _ => true
  | .StartRegisteredStream _ _ _ => true
  | _ => false

/-- The response is exactly one `showError` with the given status code. -/
def Result.hasStatus (r : Result) (code : Nat) : Prop :=
  ∃ msg, r.writes = [Write.showError msg code]

/-! ## api_create_index.go -/

/-- The collaborators of `CreateIndexHandler`: `os.PathSeparator`, the global
`*server`, `bleve.NewIndexMapping()`, `json.Unmarshal(body, &indexMapping)`
(the mapping decoded onto the given one), `bleve.New`, `NewTAPFeed` and
`StartRegisteredStream` (its error, or nil). -/
structure CreateEnv where
  PathSeparator : Char
  server : String
  NewIndexMapping : IndexMapping
  Unmarshal : String → IndexMapping → Except String IndexMapping
  New : String → IndexMapping → Except String Index
  NewTAPFeed : String → String → String → String → Except String Stream
  StartRegisteredStream : Stream → String → Index → Option String

structure CreateIndexHandler where
  basePath : String
  deriving DecidableEq, Repr

def NewCreateIndexHander (basePath : String) : CreateIndexHandler :=
  ⟨basePath⟩

def CreateIndexHandler.indexPath (env : CreateEnv) (h : CreateIndexHandler)
    (name : String) : String :=
  h.basePath ++ String.singleton env.PathSeparator ++ name

/-- The tail of `CreateIndexHandler.ServeHTTP` from `bleve.New` on, once the
mapping is settled; `pre` are the calls made so far. -/
def CreateIndexHandler.create (env : CreateEnv) (h : CreateIndexHandler)
    (indexName : String) (indexMapping : IndexMapping) (pre : List Call) : Result :=
  let c1 := pre ++ [Call.New (h.indexPath env indexName) indexMapping]
  match env.New (h.indexPath env indexName) indexMapping with
  | .error err => ⟨c1, [.showError ("error creating index: " ++ err) 500]⟩
  | .ok newIndex =>
    -- make sure there is a bucket with this name
    let c2 := c1 ++ [Call.NewTAPFeed env.server "default" indexName ""]
    match env.NewTAPFeed env.server "default" indexName "" with
    | .error err => ⟨c2, [.showError ("error preparing tap stream: " ++ err) 400]⟩
    | .ok stream =>
      let c3 := c2 ++ [Call.StartRegisteredStream stream indexName newIndex]
      match env.StartRegisteredStream stream indexName newIndex with
      | some err => ⟨c3, [.showError ("error starting registered stream: " ++ err) 500]⟩
      | none => ⟨c3, [.mustEncode (.status "ok")]⟩

def CreateIndexHandler.ServeHTTP (env : CreateEnv) (h : CreateIndexHandler)
    (req : Request) : Result :=
  -- find the name of the index to create
  let indexName := strIndex req.Vars "indexName"
  if indexName = "" then
    ⟨[], [.showError "index name is required" 400]⟩
  else
    let indexMapping := env.NewIndexMapping
    -- read the request body
    match req.Body with
    | .error err =>
      ⟨[.NewIndexMapping, .ReadAll], [.showError ("error reading request body: " ++ err) 400]⟩
    | .ok requestBody =>
      -- interpret request body as index mapping
      if requestBody.length > 0 then
        match env.Unmarshal requestBody indexMapping with
        | .error err =>
          ⟨[.NewIndexMapping, .ReadAll, .Unmarshal requestBody],
           [.showError ("error parsing index mapping: " ++ err) 400]⟩
        | .ok parsed =>
          h.create env indexName parsed [.NewIndexMapping, .ReadAll, .Unmarshal requestBody]
      else
        h.create env indexName indexMapping [.NewIndexMapping, .ReadAll]

/-! ## rest_index.go -/

/-- The collaborators of the dispatchers: the global registry
`pindexImplTypes` (a `map[string]*PIndexImplType`), `CfgGetIndexDefs(cfg)`
(returning `(indexDefs, cas, err)`, where `indexDefs` is a `*IndexDefs` and may
be nil also when `err` is nil) and `json.Unmarshal(data, &m)` on a
`map[string]interface{}`. -/
structure Env where
  pindexImplTypes : List (String × Option PIndexImplType)
  CfgGetIndexDefs : Cfg → Except String (Option IndexDefs × Nat)
  Unmarshal : String → GoMap → Except String GoMap

/-- The message of the run-time panic raised by a field access through a nil
pointer. -/
def nilDereference : String :=
  "runtime error: invalid memory address or nil pointer dereference"

structure ListIndexHandler where
  mgr : Manager

def NewListIndexHandler (mgr : Manager) : ListIndexHandler := ⟨mgr⟩

def ListIndexHandler.ServeHTTP (h : ListIndexHandler) (_req : Request) : Result :=
  match h.mgr.GetIndexDefs false with
  | .error _ => ⟨[.GetIndexDefs false], [.showError "could not retrieve index defs" 500]⟩
  | .ok (indexDefs, _) => ⟨[.GetIndexDefs false], [.mustEncode (.indexDefs "ok" indexDefs)]⟩

structure GetIndexHandler where
  mgr : Manager

def NewGetIndexHandler (mgr : Manager) : GetIndexHandler := ⟨mgr⟩

def GetIndexHandler.ServeHTTP (env : Env) (h : GetIndexHandler) (req : Request) : Result :=
  let indexName := indexNameLookup req
  if indexName = "" then
    ⟨[], [.showError "index name is required" 400]⟩
  else
    match h.mgr.GetIndexDefs false with
    | .error _ => ⟨[.GetIndexDefs false], [.showError "could not retrieve index defs" 500]⟩
    | .ok (_, indexDefsByName) =>
      match indexDefsByName.lookup indexName with
      | none => ⟨[.GetIndexDefs false], [.showError "not an index" 400]⟩
      | some none => ⟨[.GetIndexDefs false], [.showError "not an index" 400]⟩
      | some (some indexDef) =>
        let indexUUID := req.FormValue "indexUUID"
        if indexUUID ≠ "" ∧ indexUUID ≠ indexDef.UUID then
          ⟨[.GetIndexDefs false, .FormValue "indexUUID"], [.showError "wrong index UUID" 400]⟩
        else
          let m : GoMap := some []
          if indexDef.Schema ≠ "" then
            match env.Unmarshal indexDef.Schema m with
            | .error _ =>
              ⟨[.GetIndexDefs false, .FormValue "indexUUID", .Unmarshal indexDef.Schema],
               [.showError "could not unmarshal mapping" 500]⟩
            | .ok m =>
              ⟨[.GetIndexDefs false, .FormValue "indexUUID", .Unmarshal indexDef.Schema],
               [.mustEncode (.indexDef "ok" (some indexDef) m)]⟩
          else
            ⟨[.GetIndexDefs false, .FormValue "indexUUID"],
             [.mustEncode (.indexDef "ok" (some indexDef) m)]⟩

structure CountHandler where
  mgr : Manager

def NewCountHandler (mgr : Manager) : CountHandler := ⟨mgr⟩

def CountHandler.ServeHTTP (env : Env) (h : CountHandler) (req : Request) : Result :=
  let indexName := indexNameLookup req
  if indexName = "" then
    ⟨[], [.showError "index name is required" 400]⟩
  else
    let indexUUID := req.FormValue "indexUUID"
    let c0 := [Call.FormValue "indexUUID", Call.CfgGetIndexDefs h.mgr.cfg]
    match env.CfgGetIndexDefs h.mgr.cfg with
    | .error err =>
      ⟨c0, [.showError ("rest.Count, could not get indexDefs, indexName: " ++ indexName
              ++ ", err: " ++ err) 400]⟩
    | .ok (none, _) =>
      -- `indexDefs.IndexDefs` through a nil `indexDefs`
      ⟨c0, [.runtimePanic nilDereference]⟩
    | .ok (some indexDefs, _) =>
      match mapIndex indexDefs.IndexDefs indexName with
      | none => ⟨c0, [.showError ("rest.Count, no indexDef, indexName: " ++ indexName) 400]⟩
      | some indexDef =>
        let noImpl : Result :=
          ⟨c0, [.showError ("rest.Count, no pindexImplType, indexName: " ++ indexName
                  ++ ", indexDef.Type: " ++ indexDef.Typ) 400]⟩
        match mapIndex env.pindexImplTypes indexDef.Typ with
        | none => noImpl
        | some pindexImplType =>
          match pindexImplType.Count with
          | none => noImpl
          | some Count =>
            match Count h.mgr indexName indexUUID with
            | .error err =>
              ⟨c0 ++ [.Count indexName indexUUID],
               [.showError ("rest.Count, indexName: " ++ indexName ++ "1, err: " ++ err) 500]⟩
            | .ok count =>
              ⟨c0 ++ [.Count indexName indexUUID], [.mustEncode (.count "ok" count)]⟩

structure SearchHandler where
  mgr : Manager

def NewSearchHandler (mgr : Manager) : SearchHandler := ⟨mgr⟩

def SearchHandler.ServeHTTP (env : Env) (h : SearchHandler) (req : Request) : Result :=
  let indexName := indexNameLookup req
  if indexName = "" then
    ⟨[], [.showError "index name is required" 400]⟩
  else
    let indexUUID := req.FormValue "indexUUID"
    let c0 := [Call.FormValue "indexUUID", Call.CfgGetIndexDefs h.mgr.cfg]
    match env.CfgGetIndexDefs h.mgr.cfg with
    | .error err =>
      ⟨c0, [.showError ("rest.Search, could not get indexDefs, indexName: " ++ indexName
              ++ ", err: " ++ err) 400]⟩
    | .ok (none, _) =>
      -- `indexDefs.IndexDefs` through a nil `indexDefs`
      ⟨c0, [.runtimePanic nilDereference]⟩
    | .ok (some indexDefs, _) =>
      match mapIndex indexDefs.IndexDefs indexName with
      | none => ⟨c0, [.showError ("rest.Search, no indexDef, indexName: " ++ indexName) 400]⟩
      | some indexDef =>
        let noImpl : Result :=
          ⟨c0, [.showError ("rest.Search, no pindexImplType, indexName: " ++ indexName
                  ++ ", indexDef.Type: " ++ indexDef.Typ) 400]⟩
        match mapIndex env.pindexImplTypes indexDef.Typ with
        | none => noImpl
        | some pindexImplType =>
          match pindexImplType.Query with
          | none => noImpl
          | some Query =>
            match req.Body with
            | .error _ =>
              ⟨c0 ++ [.ReadAll],
               [.showError ("rest.Search, could not read request body, indexName: "
                  ++ indexName ++ ", indexDef.Type: " ++ indexDef.Typ) 400]⟩
            | .ok requestBody =>
              let c1 := c0 ++ [.ReadAll,
                .Printf ("rest.Search indexName: " ++ indexName ++ ", indexDef.Type: "
                  ++ indexDef.Typ ++ ", requestBody: " ++ requestBody),
                .Query indexName indexUUID requestBody]
              match Query h.mgr indexName indexUUID requestBody with
              | (out, some err) =>
                ⟨c1, out.map Write.raw ++
                  [.showError ("rest.Search, indexName: " ++ indexName ++ ", indexDef.Type: "
                    ++ indexDef.Typ ++ ", requestBody: " ++ requestBody ++ ", err: " ++ err) 400]⟩
              | (out, none) => ⟨c1, out.map Write.raw⟩

/-! ## Auxiliary notions used by the statements -/

/-- The calls `CreateIndexHandler.ServeHTTP` makes up to the point where the
mapping is settled, for a readable body. -/
def validationCalls (body : String) : List Call :=
  if body.length > 0 then [.NewIndexMapping, .ReadAll, .Unmarshal body]
  else [.NewIndexMapping, .ReadAll]

/-- The mapping is settled: default for an empty body, else the parse result. -/
def mappingSettled (env : CreateEnv) (body : String) (mapping : IndexMapping) : Prop :=
  (body = "" ∧ mapping = env.NewIndexMapping) ∨
  (body ≠ "" ∧ env.Unmarshal body env.NewIndexMapping = .ok mapping)

/-- Resolution of a capability fails: the name has no definition, or the
definition's type has no descriptor, or the descriptor lacks the capability. -/
def unresolved (env : Env) (defs : IndexDefs) (name : String)
    (lacks : PIndexImplType → Prop) : Prop :=
  mapIndex defs.IndexDefs name = none ∨
  ∃ d, mapIndex defs.IndexDefs name = some d ∧
    (mapIndex env.pindexImplTypes d.Typ = none ∨
     ∃ t, mapIndex env.pindexImplTypes d.Typ = some t ∧ lacks t)

/-! ## Concrete collaborators and requests -/

def exCreateEnv : CreateEnv where
  PathSeparator := '/'
  server := "localhost:8091"
  NewIndexMapping := ⟨"default"⟩
  Unmarshal := fun body _ => if body = "bad" then .error "invalid character" else .ok ⟨body⟩
  New := fun path _ => if path = "data/dup" then .error "path exists" else .ok ⟨1⟩
  NewTAPFeed := fun _ _ name _ => if name = "nobucket" then .error "no bucket" else .ok ⟨2⟩
  StartRegisteredStream := fun _ name _ => if name = "taken" then some "registered" else none

def exCreateHandler : CreateIndexHandler := NewCreateIndexHander "data"

/-- A request for index `name` with the given body and `indexUUID` parameter. -/
def exRequest (name body uuid : String) : Request where
  Vars := [("indexName", name)]
  Form := [("indexUUID", uuid)]
  Body := .ok body

def exDef : IndexDef := ⟨"idx", "u1", "bleve", ""⟩

def exDefSchema : IndexDef := ⟨"books", "u7", "bleve", "schema"⟩

def exDefBad : IndexDef := ⟨"broken", "u8", "bleve", "bad"⟩

def exDefNoCap : IndexDef := ⟨"plain", "u2", "nocap", ""⟩

def exByName : List (String × Option IndexDef) :=
  [("idx", some exDef), ("books", some exDefSchema), ("broken", some exDefBad),
   ("plain", some exDefNoCap), ("nil", none)]

def exDefs : IndexDefs := ⟨"c1", exByName⟩

def exImpl : PIndexImplType where
  Count := some (fun _ name _ => if name = "books" then .error "closed" else .ok 7)
  Query := some (fun _ _ _ body =>
    if body = "bad" then (["partial"], some "parse error") else (["hits"], none))

def exEnv : Env where
  pindexImplTypes := [("bleve", some exImpl), ("nocap", some ⟨none, none⟩), ("nilimpl", none)]
  CfgGetIndexDefs := fun _ => .ok (some exDefs, 1)
  Unmarshal := fun data _ =>
    if data = "bad" then .error "syntax" else .ok (some [("field", ⟨data⟩)])

/-- The same collaborators with an unavailable definition store. -/
def exEnvDown : Env where
  pindexImplTypes := exEnv.pindexImplTypes
  CfgGetIndexDefs := fun _ => .error "store down"
  Unmarshal := exEnv.Unmarshal

/-- The same collaborators with a store that holds no collection yet: the
read succeeds and returns a nil `*IndexDefs`. -/
def exEnvNil : Env where
  pindexImplTypes := exEnv.pindexImplTypes
  CfgGetIndexDefs := fun _ => .ok (none, 0)
  Unmarshal := exEnv.Unmarshal

def exMgr : Manager := ⟨⟨0⟩, fun _ => .ok (some exDefs, exByName)⟩

def exMgrDown : Manager := ⟨⟨0⟩, fun _ => .error "store down"⟩

/-! ## Helper lemmas -/


theorem String.length_pos_of_ne_empty (s : String) (h : s ≠ "") : s.length > 0 := by
  cases s with
  | mk data =>
    cases data with
    | nil => exact absurd rfl h
    | cons c cs => simp [String.length]

theorem String.append_left_cancel (p a b : String) (h : p ++ a = p ++ b) : a = b := by
  apply String.ext
  have hd := congrArg String.data h
  simp only [String.data_append] at hd
  exact List.append_cancel_left hd

theorem ServeHTTP_validated (env : CreateEnv) (h : CreateIndexHandler) (req : Request)
    (body : String) (mapping : IndexMapping)
    (hname : strIndex req.Vars "indexName" ≠ "")
    (hbody : req.Body = .ok body)
    (hmap : mappingSettled env body mapping) :
    h.ServeHTTP env req
      = h.create env (strIndex req.Vars "indexName") mapping (validationCalls body) := by
  unfold CreateIndexHandler.ServeHTTP validationCalls
  simp only [hname, if_false, hbody]
  rcases hmap with ⟨hb, hm⟩ | ⟨hb, hm⟩
  · subst hb
    subst hm
    simp
  · have hpos := String.length_pos_of_ne_empty body hb
    simp only [hpos, if_true, hm]

theorem validationCalls_no_creation (body : String) :
    ∀ c ∈ validationCalls body, c.isCreationStep = false := by
  intro c hc
  unfold validationCalls at hc
  split at hc <;> simp at hc <;> rcases hc with rfl | rfl | rfl <;> rfl

theorem create_of_New_error (env : CreateEnv) (h : CreateIndexHandler) (name : String)
    (mapping : IndexMapping) (pre : List Call) (err : String)
    (hnew : env.New (h.indexPath env name) mapping = .error err) :
    h.create env name mapping pre
      = ⟨pre ++ [Call.New (h.indexPath env name) mapping],
         [.showError ("error creating index: " ++ err) 500]⟩ := by
  unfold CreateIndexHandler.create
  simp only [hnew]

theorem create_of_feed_error (env : CreateEnv) (h : CreateIndexHandler) (name : String)
    (mapping : IndexMapping) (pre : List Call) (index : Index) (err : String)
    (hnew : env.New (h.indexPath env name) mapping = .ok index)
    (hfeed : env.NewTAPFeed env.server "default" name "" = .error err) :
    h.create env name mapping pre
      = ⟨pre ++ [Call.New (h.indexPath env name) mapping]
           ++ [Call.NewTAPFeed env.server "default" name ""],
         [.showError ("error preparing tap stream: " ++ err) 400]⟩ := by
  unfold CreateIndexHandler.create
  simp only [hnew, hfeed]

theorem create_of_feed_ok (env : CreateEnv) (h : CreateIndexHandler) (name : String)
    (mapping : IndexMapping) (pre : List Call) (index : Index) (stream : Stream)
    (hnew : env.New (h.indexPath env name) mapping = .ok index)
    (hfeed : env.NewTAPFeed env.server "default" name "" = .ok stream) :
    h.create env name mapping pre
      = ⟨pre ++ [Call.New (h.indexPath env name) mapping]
           ++ [Call.NewTAPFeed env.server "default" name ""]
           ++ [Call.StartRegisteredStream stream name index],
         match env.StartRegisteredStream stream name index with
         | some err => [.showError ("error starting registered stream: " ++ err) 500]
         | none => [.mustEncode (.status "ok")]⟩ := by
  unfold CreateIndexHandler.create
  simp only [hnew, hfeed]
  cases env.StartRegisteredStream stream name index <;> rfl

/-! ## Index creation -/

/-- C3: a create-index request that fails validation (empty index name, or a
non-empty body that does not parse as an index mapping) is answered with
status 400, and none of `bleve.New`, `NewTAPFeed`, `StartRegisteredStream`
has been called. -/
theorem create_validation_failure_no_side_effect (env : CreateEnv)
    (h : CreateIndexHandler) (req : Request)
    (hfail : strIndex req.Vars "indexName" = "" ∨
      ∃ body err, req.Body = .ok body ∧ body ≠ "" ∧
        env.Unmarshal body env.NewIndexMapping = .error err) :
    (h.ServeHTTP env req).hasStatus 400 ∧
    ∀ c ∈ (h.ServeHTTP env req).calls, c.isCreationStep = false := by
  by_cases hname : strIndex req.Vars "indexName" = ""
  · unfold CreateIndexHandler.ServeHTTP
    simp only [hname, if_true]
    exact ⟨⟨_, rfl⟩, by simp⟩
  · rcases hfail with h0 | ⟨body, err, hbody, hne, hparse⟩
    · exact absurd h0 hname
    · have hpos := String.length_pos_of_ne_empty body hne
      unfold CreateIndexHandler.ServeHTTP
      simp only [hname, if_false, hbody, hpos, if_true, hparse]
      refine ⟨⟨_, rfl⟩, ?_⟩
      intro c hc
      simp at hc
      rcases hc with rfl | rfl | rfl <;> rfl

/-- Witness for C3: an empty name, and the unparseable body `bad`. -/
theorem create_validation_failure_no_side_effect_witness :
    ((exCreateHandler.ServeHTTP exCreateEnv (exRequest "" "" "")).hasStatus 400 ∧
      ∀ c ∈ (exCreateHandler.ServeHTTP exCreateEnv (exRequest "" "" "")).calls,
        c.isCreationStep = false) ∧
    ((exCreateHandler.ServeHTTP exCreateEnv (exRequest "idx" "bad" "")).hasStatus 400 ∧
      ∀ c ∈ (exCreateHandler.ServeHTTP exCreateEnv (exRequest "idx" "bad" "")).calls,
        c.isCreationStep = false) :=
  ⟨create_validation_failure_no_side_effect exCreateEnv exCreateHandler
      (exRequest "" "" "") (Or.inl (by decide)),
   create_validation_failure_no_side_effect exCreateEnv exCreateHandler
      (exRequest "idx" "bad" "")
      (Or.inr ⟨"bad", "invalid character", rfl, by decide, rfl⟩)⟩

/-- C4: for a create-index request with a non-empty name and an empty or
parseable body, if `bleve.New` fails the response is status 500, no feed step
is attempted, and the only creation step is the one `bleve.New` call, at
`indexPath(name)` with the settled mapping, which is the default mapping when
the body is empty. -/
theorem create_backend_failure (env : CreateEnv) (h : CreateIndexHandler)
    (req : Request) (body : String) (mapping : IndexMapping) (err : String)
    (hname : strIndex req.Vars "indexName" ≠ "")
    (hbody : req.Body = .ok body)
    (hmap : mappingSettled env body mapping)
    (hnew : env.New (h.indexPath env (strIndex req.Vars "indexName")) mapping = .error err) :
    (h.ServeHTTP env req).hasStatus 500 ∧
    (∀ c ∈ (h.ServeHTTP env req).calls, c.isFeedStep = false) ∧
    (h.ServeHTTP env req).calls.filter Call.isCreationStep
      = [Call.New (h.indexPath env (strIndex req.Vars "indexName")) mapping] ∧
    (body = "" → mapping = env.NewIndexMapping) := by
  rw [ServeHTTP_validated env h req body mapping hname hbody hmap,
    create_of_New_error env h _ mapping _ err hnew]
  refine ⟨⟨_, rfl⟩, ?_, ?_, ?_⟩
  · intro c hc
    simp only [List.mem_append, List.mem_singleton] at hc
    rcases hc with hc | rfl
    · unfold validationCalls at hc
      split at hc <;> simp at hc <;> rcases hc with rfl | rfl | rfl <;> rfl
    · rfl
  · rw [List.filter_append, List.filter_eq_nil_iff.mpr]
    · rfl
    · intro c hc
      simp [validationCalls_no_creation body c hc]
  · intro hb
    rcases hmap with ⟨_, hm⟩ | ⟨hne, _⟩
    · exact hm
    · exact absurd hb hne

/-- Witness for C4: creating `dup` with an empty body, where `bleve.New` fails. -/
theorem create_backend_failure_witness :
    (exCreateHandler.ServeHTTP exCreateEnv (exRequest "dup" "" "")).hasStatus 500 ∧
    (∀ c ∈ (exCreateHandler.ServeHTTP exCreateEnv (exRequest "dup" "" "")).calls,
      c.isFeedStep = false) ∧
    (exCreateHandler.ServeHTTP exCreateEnv (exRequest "dup" "" "")).calls.filter
        Call.isCreationStep
      = [Call.New "data/dup" ⟨"default"⟩] ∧
    (("" : String) = "" → (⟨"default"⟩ : IndexMapping) = exCreateEnv.NewIndexMapping) :=
  create_backend_failure exCreateEnv exCreateHandler (exRequest "dup" "" "") ""
    ⟨"default"⟩ "path exists" (by decide) rfl (Or.inl ⟨rfl, rfl⟩) rfl

/-- C5: for a create-index request that passes validation and whose backend
index is created, `NewTAPFeed` is called with (`*server`, "default", the index
name, ""); if it fails the response is status 400 and the calls end there
(no registration); if registration fails the response is status 500; the
response is the acknowledgment `status: ok` exactly when both succeed; and in
each failure case the calls made are the forward steps only, ending at the
failed step, with nothing issued after it against the created index. -/
theorem create_feed_steps (env : CreateEnv) (h : CreateIndexHandler)
    (req : Request) (body : String) (mapping : IndexMapping) (index : Index)
    (hname : strIndex req.Vars "indexName" ≠ "")
    (hbody : req.Body = .ok body)
    (hmap : mappingSettled env body mapping)
    (hnew : env.New (h.indexPath env (strIndex req.Vars "indexName")) mapping = .ok index) :
    Call.NewTAPFeed env.server "default" (strIndex req.Vars "indexName") ""
      ∈ (h.ServeHTTP env req).calls ∧
    (∀ err, env.NewTAPFeed env.server "default" (strIndex req.Vars "indexName") "" = .error err →
      (h.ServeHTTP env req).hasStatus 400 ∧
      (h.ServeHTTP env req).calls = validationCalls body ++
        [Call.New (h.indexPath env (strIndex req.Vars "indexName")) mapping,
         Call.NewTAPFeed env.server "default" (strIndex req.Vars "indexName") ""]) ∧
    (∀ stream err,
      env.NewTAPFeed env.server "default" (strIndex req.Vars "indexName") "" = .ok stream →
      env.StartRegisteredStream stream (strIndex req.Vars "indexName") index = some err →
      (h.ServeHTTP env req).hasStatus 500 ∧
      (h.ServeHTTP env req).calls = validationCalls body ++
        [Call.New (h.indexPath env (strIndex req.Vars "indexName")) mapping,
         Call.NewTAPFeed env.server "default" (strIndex req.Vars "indexName") "",
         Call.StartRegisteredStream stream (strIndex req.Vars "indexName") index]) ∧
    ((h.ServeHTTP env req).writes = [Write.mustEncode (Payload.status "ok")] ↔
      ∃ stream,
        env.NewTAPFeed env.server "default" (strIndex req.Vars "indexName") "" = .ok stream ∧
        env.StartRegisteredStream stream (strIndex req.Vars "indexName") index = none) := by
  rw [ServeHTTP_validated env h req body mapping hname hbody hmap]
  cases hfeed : env.NewTAPFeed env.server "default" (strIndex req.Vars "indexName") "" with
  | error e =>
    rw [create_of_feed_error env h _ mapping _ index e hnew hfeed]
    refine ⟨by simp, ?_, ?_, ?_⟩
    · intro err herr
      exact ⟨⟨_, rfl⟩, by simp⟩
    · intro stream err hs
      cases hs
    · constructor
      · intro hw
        simp at hw
      · rintro ⟨stream, hs, _⟩
        cases hs
  | ok s =>
    rw [create_of_feed_ok env h _ mapping _ index s hnew hfeed]
    refine ⟨by simp, ?_, ?_, ?_⟩
    · intro err herr
      cases herr
    · intro stream err hs hreg
      cases hs
      simp only [hreg]
      exact ⟨⟨_, rfl⟩, by simp⟩
    · cases hreg : env.StartRegisteredStream s (strIndex req.Vars "indexName") index with
      | some e =>
        constructor
        · intro hw
          simp at hw
        · rintro ⟨stream, hs, hnone⟩
          cases hs
          rw [hreg] at hnone
          cases hnone
      | none =>
        constructor
        · intro _
          exact ⟨s, rfl, hreg⟩
        · intro _
          rfl

/-- Witness for C5: creating `taken` with body `x`, where the backend index
and the feed are created and registration fails. -/
theorem create_feed_steps_witness :
    (exCreateHandler.ServeHTTP exCreateEnv (exRequest "taken" "x" "")).hasStatus 500 ∧
    (exCreateHandler.ServeHTTP exCreateEnv (exRequest "taken" "x" "")).calls
      = [Call.NewIndexMapping, Call.ReadAll, Call.Unmarshal "x",
         Call.New "data/taken" ⟨"x"⟩,
         Call.NewTAPFeed "localhost:8091" "default" "taken" "",
         Call.StartRegisteredStream ⟨2⟩ "taken" ⟨1⟩] :=
  (create_feed_steps exCreateEnv exCreateHandler (exRequest "taken" "x" "") "x"
    ⟨"x"⟩ ⟨1⟩ (by decide) rfl (Or.inr ⟨by decide, rfl⟩) rfl).2.2.1 ⟨2⟩ "registered" rfl rfl

/-- C10: `indexPath(name)` is the base path, then the path separator, then the
name, and it is injective in the name. -/
theorem indexPath_injective (env : CreateEnv) (h : CreateIndexHandler) :
    (∀ name, (h.indexPath env name).data
      = h.basePath.data ++ [env.PathSeparator] ++ name.data) ∧
    ∀ n1 n2, h.indexPath env n1 = h.indexPath env n2 → n1 = n2 := by
  constructor
  · intro name
    simp [CreateIndexHandler.indexPath, String.singleton]
  · intro n1 n2 heq
    unfold CreateIndexHandler.indexPath at heq
    exact String.append_left_cancel _ n1 n2 heq

/-- Witness for C10: under base path `data`, only `idx` is stored at `data/idx`. -/
theorem indexPath_injective_witness :
    exCreateHandler.indexPath exCreateEnv "idx" = "data/idx" ∧
    ∀ n, exCreateHandler.indexPath exCreateEnv n
      = exCreateHandler.indexPath exCreateEnv "idx" → n = "idx" :=
  ⟨by decide, fun n hn => (indexPath_injective exCreateEnv exCreateHandler).2 n "idx" hn⟩

/-! ## Count and search dispatch -/

theorem Count_of_resolved (env : Env) (h : CountHandler) (req : Request)
    (defs : IndexDefs) (cas : Nat) (d : IndexDef) (t : PIndexImplType)
    (c : Manager → String → String → Except String Nat)
    (hname : indexNameLookup req ≠ "")
    (hdefs : env.CfgGetIndexDefs h.mgr.cfg = .ok (some defs, cas))
    (hd : mapIndex defs.IndexDefs (indexNameLookup req) = some d)
    (ht : mapIndex env.pindexImplTypes d.Typ = some t)
    (hc : t.Count = some c) :
    h.ServeHTTP env req =
      match c h.mgr (indexNameLookup req) (req.FormValue "indexUUID") with
      | .error err =>
        ⟨[Call.FormValue "indexUUID", Call.CfgGetIndexDefs h.mgr.cfg,
          Call.Count (indexNameLookup req) (req.FormValue "indexUUID")],
         [.showError ("rest.Count, indexName: " ++ indexNameLookup req ++ "1, err: " ++ err) 500]⟩
      | .ok count =>
        ⟨[Call.FormValue "indexUUID", Call.CfgGetIndexDefs h.mgr.cfg,
          Call.Count (indexNameLookup req) (req.FormValue "indexUUID")],
         [.mustEncode (.count "ok" count)]⟩ := by
  unfold CountHandler.ServeHTTP
  simp only [hname, if_false, hdefs, hd, ht, hc]
  cases c h.mgr (indexNameLookup req) (req.FormValue "indexUUID") <;> rfl

theorem Count_of_unresolved (env : Env) (h : CountHandler) (req : Request)
    (defs : IndexDefs) (cas : Nat)
    (hname : indexNameLookup req ≠ "")
    (hdefs : env.CfgGetIndexDefs h.mgr.cfg = .ok (some defs, cas))
    (hun : unresolved env defs (indexNameLookup req) (fun t => t.Count = none)) :
    ∃ msg, msg.data.head? = some 'r' ∧ h.ServeHTTP env req =
      ⟨[Call.FormValue "indexUUID", Call.CfgGetIndexDefs h.mgr.cfg],
       [.showError msg 400]⟩ := by
  unfold CountHandler.ServeHTTP
  simp only [hname, if_false, hdefs]
  rcases hun with hd | ⟨d, hd, ht | ⟨t, ht, hc⟩⟩
  · simp only [hd]
    exact ⟨_, by simp, rfl⟩
  · simp only [hd, ht]
    exact ⟨_, by simp, rfl⟩
  · simp only [hd, ht, hc]
    exact ⟨_, by simp, rfl⟩

theorem Search_of_resolved (env : Env) (h : SearchHandler) (req : Request)
    (defs : IndexDefs) (cas : Nat) (d : IndexDef) (t : PIndexImplType)
    (q : Manager → String → String → String → List String × Option String)
    (body : String)
    (hname : indexNameLookup req ≠ "")
    (hdefs : env.CfgGetIndexDefs h.mgr.cfg = .ok (some defs, cas))
    (hd : mapIndex defs.IndexDefs (indexNameLookup req) = some d)
    (ht : mapIndex env.pindexImplTypes d.Typ = some t)
    (hq : t.Query = some q)
    (hbody : req.Body = .ok body) :
    h.ServeHTTP env req =
      ⟨[Call.FormValue "indexUUID", Call.CfgGetIndexDefs h.mgr.cfg, Call.ReadAll,
        Call.Printf ("rest.Search indexName: " ++ indexNameLookup req ++ ", indexDef.Type: "
          ++ d.Typ ++ ", requestBody: " ++ body),
        Call.Query (indexNameLookup req) (req.FormValue "indexUUID") body],
       match (q h.mgr (indexNameLookup req) (req.FormValue "indexUUID") body).2 with
       | some err =>
         (q h.mgr (indexNameLookup req) (req.FormValue "indexUUID") body).1.map Write.raw ++
           [.showError ("rest.Search, indexName: " ++ indexNameLookup req ++ ", indexDef.Type: "
             ++ d.Typ ++ ", requestBody: " ++ body ++ ", err: " ++ err) 400]
       | none =>
         (q h.mgr (indexNameLookup req) (req.FormValue "indexUUID") body).1.map Write.raw⟩ := by
  unfold SearchHandler.ServeHTTP
  simp only [hname, if_false, hdefs, hd, ht, hq, hbody]
  rcases q h.mgr (indexNameLookup req) (req.FormValue "indexUUID") body with ⟨out, _ | err⟩ <;> rfl

theorem Search_of_unresolved (env : Env) (h : SearchHandler) (req : Request)
    (defs : IndexDefs) (cas : Nat)
    (hname : indexNameLookup req ≠ "")
    (hdefs : env.CfgGetIndexDefs h.mgr.cfg = .ok (some defs, cas))
    (hun : unresolved env defs (indexNameLookup req) (fun t => t.Query = none)) :
    ∃ msg, msg.data.head? = some 'r' ∧ h.ServeHTTP env req =
      ⟨[Call.FormValue "indexUUID", Call.CfgGetIndexDefs h.mgr.cfg],
       [.showError msg 400]⟩ := by
  unfold SearchHandler.ServeHTTP
  simp only [hname, if_false, hdefs]
  rcases hun with hd | ⟨d, hd, ht | ⟨t, ht, hc⟩⟩
  · simp only [hd]
    exact ⟨_, by simp, rfl⟩
  · simp only [hd, ht]
    exact ⟨_, by simp, rfl⟩
  · simp only [hd, ht, hc]
    exact ⟨_, by simp, rfl⟩

/-- For a count or search request with a non-empty index name and a read that
returns a collection, if the name has no definition, or the definition's type
has no descriptor in the registry, or the descriptor lacks the requested
capability, the response is status 400 and neither Count nor Query is called;
the search handler has not read the request body either. -/
theorem dispatch_unresolved_of_collection (env : Env) (mgr : Manager) (req : Request)
    (defs : IndexDefs) (cas : Nat)
    (hname : indexNameLookup req ≠ "")
    (hdefs : env.CfgGetIndexDefs mgr.cfg = .ok (some defs, cas)) :
    (unresolved env defs (indexNameLookup req) (fun t => t.Count = none) →
      ((NewCountHandler mgr).ServeHTTP env req).hasStatus 400 ∧
      ∀ c ∈ ((NewCountHandler mgr).ServeHTTP env req).calls, c.isCapability = false) ∧
    (unresolved env defs (indexNameLookup req) (fun t => t.Query = none) →
      ((NewSearchHandler mgr).ServeHTTP env req).hasStatus 400 ∧
      (∀ c ∈ ((NewSearchHandler mgr).ServeHTTP env req).calls, c.isCapability = false) ∧
      Call.ReadAll ∉ ((NewSearchHandler mgr).ServeHTTP env req).calls) := by
  constructor
  · intro hun
    obtain ⟨msg, _, heq⟩ := Count_of_unresolved env (NewCountHandler mgr) req defs cas
      hname hdefs hun
    rw [heq]
    refine ⟨⟨msg, rfl⟩, ?_⟩
    intro c hc
    simp at hc
    rcases hc with rfl | rfl <;> rfl
  · intro hun
    obtain ⟨msg, _, heq⟩ := Search_of_unresolved env (NewSearchHandler mgr) req defs cas
      hname hdefs hun
    rw [heq]
    refine ⟨⟨msg, rfl⟩, ?_, by simp⟩
    intro c hc
    simp at hc
    rcases hc with rfl | rfl <;> rfl

/-- An instance: `plain` has type `nocap`, whose descriptor has neither
capability. -/
theorem dispatch_unresolved_of_collection_example :
    (((NewCountHandler exMgr).ServeHTTP exEnv (exRequest "plain" "q" "u2")).hasStatus 400 ∧
      ∀ c ∈ ((NewCountHandler exMgr).ServeHTTP exEnv (exRequest "plain" "q" "u2")).calls,
        c.isCapability = false) ∧
    (((NewSearchHandler exMgr).ServeHTTP exEnv (exRequest "plain" "q" "u2")).hasStatus 400 ∧
      (∀ c ∈ ((NewSearchHandler exMgr).ServeHTTP exEnv (exRequest "plain" "q" "u2")).calls,
        c.isCapability = false) ∧
      Call.ReadAll ∉ ((NewSearchHandler exMgr).ServeHTTP exEnv (exRequest "plain" "q" "u2")).calls) :=
  ⟨(dispatch_unresolved_of_collection exEnv exMgr (exRequest "plain" "q" "u2") exDefs 1
      (by decide) rfl).1 (Or.inr ⟨exDefNoCap, rfl, Or.inr ⟨⟨none, none⟩, rfl, rfl⟩⟩),
   (dispatch_unresolved_of_collection exEnv exMgr (exRequest "plain" "q" "u2") exDefs 1
      (by decide) rfl).2 (Or.inr ⟨exDefNoCap, rfl, Or.inr ⟨⟨none, none⟩, rfl, rfl⟩⟩)⟩

/-- C6 at a store whose read succeeds with a nil collection, so that the name
`idx` has no definition: the count handler and the search handler panic on
`indexDefs.IndexDefs` instead of answering 400; no capability is called and
the search handler has not read the body. -/
theorem nil_collection_panics :
    exEnvNil.CfgGetIndexDefs exMgr.cfg = .ok (none, 0) ∧
    indexNameLookup (exRequest "idx" "q" "") ≠ "" ∧
    (NewCountHandler exMgr).ServeHTTP exEnvNil (exRequest "idx" "q" "")
      = ⟨[Call.FormValue "indexUUID", Call.CfgGetIndexDefs ⟨0⟩],
         [Write.runtimePanic nilDereference]⟩ ∧
    (NewSearchHandler exMgr).ServeHTTP exEnvNil (exRequest "idx" "q" "")
      = ⟨[Call.FormValue "indexUUID", Call.CfgGetIndexDefs ⟨0⟩],
         [Write.runtimePanic nilDereference]⟩ ∧
    ¬ ((NewCountHandler exMgr).ServeHTTP exEnvNil (exRequest "idx" "q" "")).hasStatus 400 ∧
    ¬ ((NewSearchHandler exMgr).ServeHTTP exEnvNil (exRequest "idx" "q" "")).hasStatus 400 := by
  refine ⟨rfl, by decide, rfl, rfl, ?_, ?_⟩
  · rintro ⟨msg, hmsg⟩
    have h : Write.runtimePanic nilDereference = Write.showError msg 400 :=
      List.head_eq_of_cons_eq hmsg
    cases h
  · rintro ⟨msg, hmsg⟩
    have h : Write.runtimePanic nilDereference = Write.showError msg 400 :=
      List.head_eq_of_cons_eq hmsg
    cases h

/-- C8, as the code has it: once a capability is resolved, the count handler
calls Count exactly once with (manager, index name, indexUUID), answers
status 500 if it fails and otherwise `status: ok` with exactly the returned
count; the search handler, given a readable body, calls Query exactly once
with (manager, index name, indexUUID, request body), whose output goes to the
response writer; if Query fails the handler calls `showError` with 400 after
that output, so that the response is status 400 exactly when Query wrote
nothing before failing; if Query succeeds the handler writes nothing of its
own. -/
theorem capability_invocation (env : Env) (mgr : Manager) (req : Request)
    (defs : IndexDefs) (cas : Nat) (d : IndexDef) (t : PIndexImplType)
    (hname : indexNameLookup req ≠ "")
    (hdefs : env.CfgGetIndexDefs mgr.cfg = .ok (some defs, cas))
    (hd : mapIndex defs.IndexDefs (indexNameLookup req) = some d)
    (ht : mapIndex env.pindexImplTypes d.Typ = some t) :
    (∀ c, t.Count = some c →
      ((NewCountHandler mgr).ServeHTTP env req).calls.filter Call.isCapability
        = [Call.Count (indexNameLookup req) (req.FormValue "indexUUID")] ∧
      (∀ err, c mgr (indexNameLookup req) (req.FormValue "indexUUID") = .error err →
        ((NewCountHandler mgr).ServeHTTP env req).hasStatus 500) ∧
      (∀ n, c mgr (indexNameLookup req) (req.FormValue "indexUUID") = .ok n →
        ((NewCountHandler mgr).ServeHTTP env req).writes
          = [Write.mustEncode (Payload.count "ok" n)])) ∧
    (∀ q body, t.Query = some q → req.Body = .ok body →
      ((NewSearchHandler mgr).ServeHTTP env req).calls.filter Call.isCapability
        = [Call.Query (indexNameLookup req) (req.FormValue "indexUUID") body] ∧
      (∀ out err,
        q mgr (indexNameLookup req) (req.FormValue "indexUUID") body = (out, some err) →
        (∃ msg, ((NewSearchHandler mgr).ServeHTTP env req).writes
          = out.map Write.raw ++ [Write.showError msg 400]) ∧
        (((NewSearchHandler mgr).ServeHTTP env req).hasStatus 400 ↔ out = [])) ∧
      (∀ out, q mgr (indexNameLookup req) (req.FormValue "indexUUID") body = (out, none) →
        ((NewSearchHandler mgr).ServeHTTP env req).writes = out.map Write.raw)) := by
  constructor
  · intro c hc
    rw [Count_of_resolved env (NewCountHandler mgr) req defs cas d t c hname hdefs hd ht hc]
    simp only [NewCountHandler]
    cases hres : c mgr (indexNameLookup req) (req.FormValue "indexUUID") with
    | error e =>
      refine ⟨by simp [Call.isCapability], ?_, ?_⟩
      · intro err _
        exact ⟨_, rfl⟩
      · intro n hn
        cases hn
    | ok k =>
      refine ⟨by simp [Call.isCapability], ?_, ?_⟩
      · intro err he
        cases he
      · intro n hn
        cases hn
        rfl
  · intro q body hq hbody
    rw [Search_of_resolved env (NewSearchHandler mgr) req defs cas d t q body
      hname hdefs hd ht hq hbody]
    simp only [NewSearchHandler]
    refine ⟨by simp [Call.isCapability], ?_, ?_⟩
    · intro out err hres
      rw [hres]
      refine ⟨⟨_, rfl⟩, ?_⟩
      constructor
      · rintro ⟨msg, hmsg⟩
        have hlen := congrArg List.length hmsg
        simp only [List.length_append, List.length_map, List.length_singleton] at hlen
        exact List.length_eq_zero.mp (by omega)
      · intro hout
        subst hout
        exact ⟨_, rfl⟩
    · intro out hres
      rw [hres]

/-- Witness for C8 as amended: counting `idx` returns 7; querying it with body
`bad` fails after writing `partial`, and the 400 of `showError` comes after
that output. -/
theorem capability_invocation_witness :
    ((NewCountHandler exMgr).ServeHTTP exEnv (exRequest "idx" "bad" "u1")).writes
      = [Write.mustEncode (Payload.count "ok" 7)] ∧
    ∃ msg, ((NewSearchHandler exMgr).ServeHTTP exEnv (exRequest "idx" "bad" "u1")).writes
      = [Write.raw "partial", Write.showError msg 400] :=
  ⟨((capability_invocation exEnv exMgr (exRequest "idx" "bad" "u1") exDefs 1 exDef exImpl
      (by decide) rfl rfl rfl).1 _ rfl).2.2 7 rfl,
   (((capability_invocation exEnv exMgr (exRequest "idx" "bad" "u1") exDefs 1 exDef exImpl
      (by decide) rfl rfl rfl).2 _ "bad" rfl rfl).2.1 ["partial"] "parse error" rfl).1⟩

/-- C8 as stated fails: for `idx` the Query capability is resolved and called,
it writes `partial` and then returns an error, and the response is not a
status 400: the first write is Query's own output. -/
theorem query_failure_after_output_not_400 :
    mapIndex exEnv.pindexImplTypes exDef.Typ = some exImpl ∧
    (∃ q, exImpl.Query = some q ∧
      q exMgr "idx" "u1" "bad" = (["partial"], some "parse error")) ∧
    ((NewSearchHandler exMgr).ServeHTTP exEnv (exRequest "idx" "bad" "u1")).writes
      = [Write.raw "partial",
         Write.showError ("rest.Search, indexName: idx, indexDef.Type: bleve, "
           ++ "requestBody: bad, err: parse error") 400] ∧
    ¬ ((NewSearchHandler exMgr).ServeHTTP exEnv (exRequest "idx" "bad" "u1")).hasStatus 400 := by
  refine ⟨rfl, ⟨_, rfl, rfl⟩, by decide, ?_⟩
  rintro ⟨msg, hmsg⟩
  have hlen : ((NewSearchHandler exMgr).ServeHTTP exEnv
      (exRequest "idx" "bad" "u1")).writes.length = 1 := by
    rw [hmsg]
    rfl
  revert hlen
  decide

/-- C2 at a failing store: the get-index handler answers 500, but the count
and search handlers answer 400; none of them calls a capability. -/
theorem store_failure_status :
    ((NewGetIndexHandler exMgrDown).ServeHTTP exEnvDown (exRequest "idx" "q" "")).writes
      = [Write.showError "could not retrieve index defs" 500] ∧
    ((NewCountHandler exMgrDown).ServeHTTP exEnvDown (exRequest "idx" "q" ""))
      = ⟨[Call.FormValue "indexUUID", Call.CfgGetIndexDefs ⟨0⟩],
         [Write.showError
           "rest.Count, could not get indexDefs, indexName: idx, err: store down" 400]⟩ ∧
    ((NewSearchHandler exMgrDown).ServeHTTP exEnvDown (exRequest "idx" "q" ""))
      = ⟨[Call.FormValue "indexUUID", Call.CfgGetIndexDefs ⟨0⟩],
         [Write.showError
           "rest.Search, could not get indexDefs, indexName: idx, err: store down" 400]⟩ ∧
    ¬ ((NewCountHandler exMgrDown).ServeHTTP exEnvDown (exRequest "idx" "q" "")).hasStatus 500 ∧
    ¬ ((NewSearchHandler exMgrDown).ServeHTTP exEnvDown (exRequest "idx" "q" "")).hasStatus 500 := by
  refine ⟨rfl, rfl, rfl, ?_, ?_⟩
  · rintro ⟨msg, hmsg⟩
    have h : Write.showError
        "rest.Count, could not get indexDefs, indexName: idx, err: store down" 400
        = Write.showError msg 500 := by
      have := List.head_eq_of_cons_eq hmsg
      exact this
    injection h with _ hcode
    exact absurd hcode (by decide)
  · rintro ⟨msg, hmsg⟩
    have h : Write.showError
        "rest.Search, could not get indexDefs, indexName: idx, err: store down" 400
        = Write.showError msg 500 := by
      have := List.head_eq_of_cons_eq hmsg
      exact this
    injection h with _ hcode
    exact absurd hcode (by decide)

/-! ## Definition lookup -/

theorem Get_of_resolved (env : Env) (h : GetIndexHandler) (req : Request)
    (defs : Option IndexDefs) (byName : List (String × Option IndexDef)) (d : IndexDef)
    (hname : indexNameLookup req ≠ "")
    (hdefs : h.mgr.GetIndexDefs false = .ok (defs, byName))
    (hd : byName.lookup (indexNameLookup req) = some (some d)) :
    h.ServeHTTP env req =
      if req.FormValue "indexUUID" ≠ "" ∧ req.FormValue "indexUUID" ≠ d.UUID then
        ⟨[.GetIndexDefs false, .FormValue "indexUUID"], [.showError "wrong index UUID" 400]⟩
      else if d.Schema ≠ "" then
        match env.Unmarshal d.Schema (some []) with
        | .error _ =>
          ⟨[.GetIndexDefs false, .FormValue "indexUUID", .Unmarshal d.Schema],
           [.showError "could not unmarshal mapping" 500]⟩
        | .ok m =>
          ⟨[.GetIndexDefs false, .FormValue "indexUUID", .Unmarshal d.Schema],
           [.mustEncode (.indexDef "ok" (some d) m)]⟩
      else
        ⟨[.GetIndexDefs false, .FormValue "indexUUID"],
         [.mustEncode (.indexDef "ok" (some d) (some []))]⟩ := by
  unfold GetIndexHandler.ServeHTTP
  simp only [hname, if_false, hdefs, hd]

/-- C7: for a get-index request whose non-empty name resolves to a non-nil
stored definition, the response is 400 "wrong index UUID" if and only if the
indexUUID parameter is non-empty and differs from the definition's UUID;
otherwise the request passes the fence (the response is the decode failure or
the `status: ok` answer); and a name with no definition, or a nil entry, is
answered 400 "not an index" without the indexUUID parameter being read. -/
theorem get_uuid_fence (env : Env) (h : GetIndexHandler) (req : Request)
    (defs : Option IndexDefs) (byName : List (String × Option IndexDef))
    (hname : indexNameLookup req ≠ "")
    (hdefs : h.mgr.GetIndexDefs false = .ok (defs, byName)) :
    (∀ d, byName.lookup (indexNameLookup req) = some (some d) →
      ((h.ServeHTTP env req).writes = [Write.showError "wrong index UUID" 400] ↔
        (req.FormValue "indexUUID" ≠ "" ∧ req.FormValue "indexUUID" ≠ d.UUID)) ∧
      ((req.FormValue "indexUUID" = "" ∨ req.FormValue "indexUUID" = d.UUID) →
        (h.ServeHTTP env req).writes = [Write.showError "could not unmarshal mapping" 500] ∨
        ∃ m, (h.ServeHTTP env req).writes
          = [Write.mustEncode (Payload.indexDef "ok" (some d) m)])) ∧
    ((byName.lookup (indexNameLookup req) = none ∨
        byName.lookup (indexNameLookup req) = some none) →
      (h.ServeHTTP env req).writes = [Write.showError "not an index" 400] ∧
      Call.FormValue "indexUUID" ∉ (h.ServeHTTP env req).calls) := by
  constructor
  · intro d hd
    rw [Get_of_resolved env h req defs byName d hname hdefs hd]
    by_cases hfence : req.FormValue "indexUUID" ≠ "" ∧ req.FormValue "indexUUID" ≠ d.UUID
    · rw [if_pos hfence]
      refine ⟨⟨fun _ => hfence, fun _ => rfl⟩, ?_⟩
      intro hpass
      rcases hpass with he | he
      · exact absurd he hfence.1
      · exact absurd he hfence.2
    · rw [if_neg hfence]
      by_cases hs : d.Schema ≠ ""
      · rw [if_pos hs]
        cases env.Unmarshal d.Schema (some []) with
        | error e =>
          refine ⟨⟨fun hw => ?_, fun hf => absurd hf hfence⟩, fun _ => Or.inl rfl⟩
          simp at hw
        | ok m =>
          refine ⟨⟨fun hw => ?_, fun hf => absurd hf hfence⟩, fun _ => Or.inr ⟨m, rfl⟩⟩
          simp at hw
      · rw [if_neg hs]
        refine ⟨⟨fun hw => ?_, fun hf => absurd hf hfence⟩, fun _ => Or.inr ⟨_, rfl⟩⟩
        simp at hw
  · intro hno
    unfold GetIndexHandler.ServeHTTP
    simp only [hname, if_false, hdefs]
    rcases hno with hno | hno
    · rw [hno]
      exact ⟨rfl, by simp⟩
    · rw [hno]
      exact ⟨rfl, by simp⟩

/-- Witness for C7: `idx` is stored with UUID `u1`, so `u2` is fenced off;
`nil` is a nil entry. -/
theorem get_uuid_fence_witness :
    ((NewGetIndexHandler exMgr).ServeHTTP exEnv (exRequest "idx" "" "u2")).writes
      = [Write.showError "wrong index UUID" 400] ∧
    ((NewGetIndexHandler exMgr).ServeHTTP exEnv (exRequest "nil" "" "u2")).writes
      = [Write.showError "not an index" 400] ∧
    Call.FormValue "indexUUID"
      ∉ ((NewGetIndexHandler exMgr).ServeHTTP exEnv (exRequest "nil" "" "u2")).calls :=
  ⟨((get_uuid_fence exEnv (NewGetIndexHandler exMgr) (exRequest "idx" "" "u2") (some exDefs)
      exByName (by decide) rfl).1 exDef rfl).1.mpr ⟨by decide, by decide⟩,
   (get_uuid_fence exEnv (NewGetIndexHandler exMgr) (exRequest "nil" "" "u2") (some exDefs)
      exByName (by decide) rfl).2 (Or.inr rfl)⟩

/-- C9: for a get-index request that passes name resolution and the UUID
fence, a non-empty stored Schema that fails to decode gives status 500; a
non-empty Schema that decodes gives `status: ok` with the definition stored
under the name and the decoded mapping; an empty Schema gives `status: ok`
with that definition and the empty, non-nil map, and `json.Unmarshal` is not
called. -/
theorem get_schema_decode (env : Env) (h : GetIndexHandler) (req : Request)
    (defs : Option IndexDefs) (byName : List (String × Option IndexDef)) (d : IndexDef)
    (hname : indexNameLookup req ≠ "")
    (hdefs : h.mgr.GetIndexDefs false = .ok (defs, byName))
    (hd : byName.lookup (indexNameLookup req) = some (some d))
    (hfence : req.FormValue "indexUUID" = "" ∨ req.FormValue "indexUUID" = d.UUID) :
    (d.Schema ≠ "" → ∀ err, env.Unmarshal d.Schema (some []) = .error err →
      (h.ServeHTTP env req).hasStatus 500) ∧
    (d.Schema ≠ "" → ∀ m, env.Unmarshal d.Schema (some []) = .ok m →
      (h.ServeHTTP env req).writes = [Write.mustEncode (Payload.indexDef "ok" (some d) m)]) ∧
    (d.Schema = "" →
      (h.ServeHTTP env req).writes
        = [Write.mustEncode (Payload.indexDef "ok" (some d) (some []))] ∧
      (some [] : GoMap) ≠ none ∧
      ∀ data, Call.Unmarshal data ∉ (h.ServeHTTP env req).calls) := by
  have hpass : ¬ (req.FormValue "indexUUID" ≠ "" ∧ req.FormValue "indexUUID" ≠ d.UUID) := by
    rintro ⟨h1, h2⟩
    rcases hfence with he | he
    · exact h1 he
    · exact h2 he
  rw [Get_of_resolved env h req defs byName d hname hdefs hd, if_neg hpass]
  refine ⟨?_, ?_, ?_⟩
  · intro hs err herr
    rw [if_pos hs, herr]
    exact ⟨_, rfl⟩
  · intro hs m hm
    rw [if_pos hs, hm]
  · intro hs
    rw [if_neg (not_not.mpr hs)]
    exact ⟨rfl, by simp, by simp⟩

/-- Witness for C9: `broken` has a Schema that does not decode, `idx` has an
empty Schema. -/
theorem get_schema_decode_witness :
    ((NewGetIndexHandler exMgr).ServeHTTP exEnv (exRequest "broken" "" "u8")).hasStatus 500 ∧
    ((NewGetIndexHandler exMgr).ServeHTTP exEnv (exRequest "idx" "" "")).writes
      = [Write.mustEncode (Payload.indexDef "ok" (some exDef) (some []))] :=
  ⟨(get_schema_decode exEnv (NewGetIndexHandler exMgr) (exRequest "broken" "" "u8")
      (some exDefs) exByName exDefBad (by decide) rfl rfl (Or.inr rfl)).1
      (by decide) "syntax" rfl,
   ((get_schema_decode exEnv (NewGetIndexHandler exMgr) (exRequest "idx" "" "")
      (some exDefs) exByName exDef (by decide) rfl rfl (Or.inl rfl)).2.2 rfl).1⟩

end Cbft
